import Mathlib

/-!
Verification of the sharding-strategy generator core
(`colossalai/auto_parallel/solver/strategy/strategy_generator.py`).

The file shallowly embeds `StrategyGenerator_V2` and the data types it
manipulates.  The generator itself is translated from the source file;
the collaborating types (`ShardingSpec`, `CommSpec`, `DeviceMesh`,
`OperationData`, `TrainCycleItem`, `ShardingStrategy_V2`) are imported by
the source from modules that are not part of this excerpt, so they are
modelled from the specification.  Python dictionaries are modelled as
association lists (first binding wins), in-place mutation as returning an
updated value, and raised exceptions as `Except` errors.
-/

namespace AutoParallelSolver

/-- Modelled from the spec: a scalar element type with a known byte size
(the source obtains it as `torch.tensor([], dtype=dtype).element_size()`;
torch is not part of this repository). -/
structure DType where
  element_size : Nat
  deriving DecidableEq

/-- Modelled from the spec: the tensor payload of an operand; only its
`dtype` is consulted by the generator. -/
structure TensorData where
  dtype : DType
  deriving DecidableEq

/-- Modelled from the spec: `OperationData` (from `..sharding_strategy`,
not under `src/`): names one operand/result, carries its full logical
shape and its element data type. -/
structure OperationData where
  name : String
  logical_shape : List Nat
  data : TensorData
  deriving DecidableEq

/-- Modelled from the spec: `DeviceMesh` (from
`colossalai.device.device_mesh`, not under `src/`): an ordered sequence
of axis sizes. -/
structure DeviceMesh where
  mesh_shape : List Nat
  deriving DecidableEq

/-- Product of a list of naturals. -/
def listProd (l : List Nat) : Nat := l.foldl (· * ·) 1

/-- Modelled from the spec: `DeviceMesh.flatten` produces a new grid with
a single axis whose size is the product of all axis sizes. -/
def DeviceMesh.flatten (m : DeviceMesh) : DeviceMesh :=
  DeviceMesh.mk [listProd m.mesh_shape]

/-- Errors of the core, named as in the specification.  In the source,
`UnknownOperand` is a dictionary-lookup failure, `UnsupportedCommPattern`
is the `ValueError` raised by the cost updater, `NonDivisibleShard` is
surfaced from the sharded-shape derivation, and `EmptyShape` models
`reduce` applied to an empty shape. -/
inductive SolverError where
  | UnknownOperand
  | NonDivisibleShard
  | UnsupportedCommPattern
  | EmptyShape
  deriving DecidableEq

/-- Lookup in an association list (Python dictionary access; first
binding wins). -/
def findVal {α β : Type} [DecidableEq α] : List (α × β) → α → Option β
  | [], _ => none
  | (k, v) :: rest, key => if k = key then some v else findVal rest key

/-- `true` iff the `Except` value is `ok` (Python: the call returned
rather than raised). -/
def exceptOk {ε α : Type} : Except ε α → Bool
  | .ok _ => true
  | .error _ => false

/-- Modelled from the spec: `ShardingSpec` (from
`colossalai.tensor.sharding_spec`, not under `src/`): a device grid, the
full logical shape, and a mapping from logical-dimension index to the
ordered list of grid-axis indices sharding it. -/
structure ShardingSpec where
  device_mesh : DeviceMesh
  entire_shape : List Nat
  dim_partition_dict : List (Nat × List Nat)
  deriving DecidableEq

/-- Product of the sizes of the grid axes assigned to logical dimension
`i` (1 when the dimension is unpartitioned). -/
def ShardingSpec.dimAxesProduct (spec : ShardingSpec) (i : Nat) : Nat :=
  ((findVal spec.dim_partition_dict i).getD []).foldl
    (fun acc a => acc * spec.device_mesh.mesh_shape.getD a 1) 1

/-- Worker for the per-device shape derivation: dimension at running
index `i` is divided by the product of its assigned axis sizes; a
non-exact division fails with `NonDivisibleShard`. -/
def shardDims (spec : ShardingSpec) : Nat → List Nat → Except SolverError (List Nat)
  | _, [] => .ok []
  | i, d :: rest =>
    let p := spec.dimAxesProduct i
    if d % p = 0 then Except.map (fun t => d / p :: t) (shardDims spec (i + 1) rest)
    else .error .NonDivisibleShard

/-- Modelled from the spec: `ShardingSpec.get_sharded_shape_per_device`
derives the per-device shape, each partitioned dimension divided by the
product of its assigned axis sizes; a violation of the even-division
precondition fails with `NonDivisibleShard`, never silently rounded. -/
def ShardingSpec.get_sharded_shape_per_device (spec : ShardingSpec) :
    Except SolverError (List Nat) :=
  shardDims spec 0 spec.entire_shape

/-- Modelled from the spec: the closed enumerated set of collective
communication patterns (`CollectiveCommPattern` from
`colossalai.tensor.shape_consistency`, not under `src/`).  The two
patterns named by the cost updater plus further members of the closed
set, which the updater does not support. -/
inductive CollectiveCommPattern where
  | REDUCE_FWD_IDENTITY_BWD
  | IDENTITY_FWD_ALLREDUCE_BWD
  | GATHER_FWD_SPLIT_BWD
  | ALL2ALL_FWD_ALL2ALL_BWD
  deriving DecidableEq

/-- The source's `Union[int, List[int]]` argument: one grid axis or a
list of grid axes. -/
inductive LogicalProcessAxis where
  | single (axis : Nat)
  | multi (axes : List Nat)
  deriving DecidableEq

/-- Modelled from the spec: `CommSpec` (from
`colossalai.tensor.shape_consistency`, not under `src/`): a pattern, the
layout it acts on, and the grid axis it runs over. -/
structure CommSpec where
  comm_pattern : CollectiveCommPattern
  sharding_spec : ShardingSpec
  logical_process_axis : LogicalProcessAxis
  deriving DecidableEq

/-- Per-dimension division of a shape (total companion of `shardDims`,
used to state what the derivation returns on success). -/
def divideDims (spec : ShardingSpec) : Nat → List Nat → List Nat
  | _, [] => []
  | i, d :: rest => d / spec.dimAxesProduct i :: divideDims spec (i + 1) rest

/-- Modelled from the spec: `CommSpec.get_comm_cost` returns the action's
estimated communicated volume as an element count; modelled as the
element count of the per-device sharded tensor of the layout the action
acts on. -/
def CommSpec.get_comm_cost (cs : CommSpec) : Nat :=
  listProd (divideDims cs.sharding_spec 0 cs.sharding_spec.entire_shape)

/-- Modelled from the spec: `TrainCycleItem` (from
`..sharding_strategy`, not under `src/`): a forward/backward pair of
cost scalars. -/
structure TrainCycleItem where
  fwd : Nat
  bwd : Nat
  deriving DecidableEq

/-- Modelled from the spec: `ShardingStrategy_V2` (from
`..sharding_strategy`, not under `src/`): a name, the layout chosen per
operand, the communication actions per operand (optional), and the three
cost accumulators, absent until the corresponding update phase runs. -/
structure ShardingStrategy_V2 where
  name : String
  sharding_specs : List (OperationData × ShardingSpec)
  communication_actions : Option (List (OperationData × CommSpec))
  communication_cost : Option TrainCycleItem
  compute_cost : Option TrainCycleItem
  memory_cost : Option TrainCycleItem
  deriving DecidableEq

/-- The generator: the operand-descriptor mapping and the device grid of
one operation instance (`StrategyGenerator_V2.__init__`). -/
structure StrategyGenerator_V2 where
  op_data : List (String × OperationData)
  device_mesh : DeviceMesh
  deriving DecidableEq

/-- `StrategyGenerator_V2.replace_op_name_with_op_data`: rekey a mapping
from operand names to the operand descriptors themselves; a name absent
from `op_data` raises (`UnknownOperand`). -/
def StrategyGenerator_V2.replace_op_name_with_op_data {α : Type}
    (self : StrategyGenerator_V2) (mapping : List (String × α)) :
    Except SolverError (List (OperationData × α)) :=
  mapping.mapM (fun kv =>
    match findVal self.op_data kv.1 with
    | some op_data => .ok (op_data, kv.2)
    | none => .error .UnknownOperand)

/-- `StrategyGenerator_V2.to_sharding_spec_mapping`: build a
`ShardingSpec` for each named operand from its dim-partition dictionary,
looking up the logical shape in `op_data`; a name absent from `op_data`
raises (`UnknownOperand`). -/
def StrategyGenerator_V2.to_sharding_spec_mapping
    (self : StrategyGenerator_V2)
    (mapping : List (String × List (Nat × List Nat))) :
    Except SolverError (List (String × ShardingSpec)) :=
  mapping.mapM (fun kv =>
    match findVal self.op_data kv.1 with
    | some op_data =>
        .ok (kv.1, ShardingSpec.mk self.device_mesh op_data.logical_shape kv.2)
    | none => .error .UnknownOperand)

/-- `StrategyGenerator_V2.get_sharding_strategy`: resolve both mappings
to operand descriptors and assemble a named strategy with empty cost
accumulators. -/
def StrategyGenerator_V2.get_sharding_strategy (self : StrategyGenerator_V2)
    (name : String) (sharding_spec_mapping : List (String × ShardingSpec))
    (communication_action_mapping : List (String × CommSpec)) :
    Except SolverError ShardingStrategy_V2 := do
  let sharding_specs ← self.replace_op_name_with_op_data sharding_spec_mapping
  let communication_actions ← self.replace_op_name_with_op_data communication_action_mapping
  return ShardingStrategy_V2.mk name sharding_specs (some communication_actions) none none none

/-- `StrategyGenerator_V2.get_communication_spec`: when the axis argument
is a list of exactly two axes, the sharding spec's device mesh is
replaced by its flattened form and the axis collapses to 0; otherwise
the arguments are passed through unchanged. -/
def StrategyGenerator_V2.get_communication_spec (self : StrategyGenerator_V2)
    (sharding_spec : ShardingSpec) (communication_pattern : CollectiveCommPattern)
    (logical_process_axis : LogicalProcessAxis) : CommSpec :=
  match logical_process_axis with
  | .multi axes =>
    if axes.length = 2 then
      CommSpec.mk communication_pattern
        (ShardingSpec.mk sharding_spec.device_mesh.flatten
          sharding_spec.entire_shape sharding_spec.dim_partition_dict)
        (.single 0)
    else CommSpec.mk communication_pattern sharding_spec (.multi axes)
  | .single a => CommSpec.mk communication_pattern sharding_spec (.single a)

/-- The inner `_compute_and_add` of `update_communication_cost`: price
one action as `size_per_elem_bytes * num_ele_in_comm` and add it to the
forward accumulator for the two supported patterns; any other pattern
raises (`UnsupportedCommPattern`).  The source's inner function reads the
enclosing loop variable `operand` for the dtype, which is the same value
as its `data` parameter. -/
def _compute_and_add (comm_cost : TrainCycleItem) (operand : OperationData)
    (comm_spec : CommSpec) : Except SolverError TrainCycleItem :=
  let num_ele_in_comm := comm_spec.get_comm_cost
  let size_per_elem_bytes := operand.data.dtype.element_size
  let cost := size_per_elem_bytes * num_ele_in_comm
  match comm_spec.comm_pattern with
  | .REDUCE_FWD_IDENTITY_BWD => .ok (TrainCycleItem.mk (comm_cost.fwd + cost) comm_cost.bwd)
  | .IDENTITY_FWD_ALLREDUCE_BWD => .ok (TrainCycleItem.mk (comm_cost.fwd + cost) comm_cost.bwd)
  | _ => .error .UnsupportedCommPattern

/-- `StrategyGenerator_V2.update_communication_cost`: start from a fresh
zero accumulator, fold `_compute_and_add` over the communication actions
when they are present, and store the result in `communication_cost`.
In-place mutation is modelled by returning the updated strategy; a raise
aborts before the store, so the caller's strategy keeps its previous
`communication_cost`. -/
def StrategyGenerator_V2.update_communication_cost (self : StrategyGenerator_V2)
    (strategy : ShardingStrategy_V2) : Except SolverError ShardingStrategy_V2 :=
  let comm_cost :=
    match strategy.communication_actions with
    | none => Except.ok (TrainCycleItem.mk 0 0)
    | some actions =>
        actions.foldlM (fun acc p => _compute_and_add acc p.1 p.2) (TrainCycleItem.mk 0 0)
  Except.map (fun c => { strategy with communication_cost := some c }) comm_cost

/-- The source's `reduce(operator.mul, shape)` with no initial value:
fails on an empty sequence, otherwise folds multiplication from the
head. -/
def reduceMul : List Nat → Except SolverError Nat
  | [] => .error .EmptyShape
  | h :: t => .ok (t.foldl (· * ·) h)

/-- `StrategyGenerator_V2._compute_size_in_bytes`: look up the operand by
name, its sharding spec in the strategy, derive the per-device shape and
return its element product times the element byte size. -/
def StrategyGenerator_V2._compute_size_in_bytes (self : StrategyGenerator_V2)
    (strategy : ShardingStrategy_V2) (key : String) : Except SolverError Nat :=
  match findVal self.op_data key with
  | none => .error .UnknownOperand
  | some op_data =>
    match findVal strategy.sharding_specs op_data with
    | none => .error .UnknownOperand
    | some sp =>
      match sp.get_sharded_shape_per_device with
      | .error e => .error e
      | .ok sharded_shape =>
        let size_per_elem_bytes := op_data.data.dtype.element_size
        Except.map (fun prod => prod * size_per_elem_bytes) (reduceMul sharded_shape)

/-- The cost `_compute_and_add` computes for one (operand, action) pair:
the action's communicated element count times the operand element's byte
size. -/
def actionCost (p : OperationData × CommSpec) : Nat :=
  p.1.data.dtype.element_size * p.2.get_comm_cost

/-- The two patterns the cost updater knows how to price. -/
def supportedPattern : CollectiveCommPattern → Bool
  | .REDUCE_FWD_IDENTITY_BWD => true
  | .IDENTITY_FWD_ALLREDUCE_BWD => true
  | _ => false

/-! ### Shared lemmas about the communication-cost fold -/

lemma update_comm_cost_none_eq (g : StrategyGenerator_V2) (s : ShardingStrategy_V2)
    (h : s.communication_actions = none) :
    g.update_communication_cost s =
      .ok { s with communication_cost := some (TrainCycleItem.mk 0 0) } := by
  unfold StrategyGenerator_V2.update_communication_cost
  rw [h]
  rfl

lemma update_comm_cost_some_eq (g : StrategyGenerator_V2) (s : ShardingStrategy_V2)
    (l : List (OperationData × CommSpec)) (h : s.communication_actions = some l) :
    g.update_communication_cost s =
      Except.map (fun c => { s with communication_cost := some c })
        (l.foldlM (fun acc p => _compute_and_add acc p.1 p.2) (TrainCycleItem.mk 0 0)) := by
  unfold StrategyGenerator_V2.update_communication_cost
  rw [h]

lemma compute_and_add_supported (acc : TrainCycleItem) (p : OperationData × CommSpec)
    (h : supportedPattern p.2.comm_pattern = true) :
    _compute_and_add acc p.1 p.2 = .ok (TrainCycleItem.mk (acc.fwd + actionCost p) acc.bwd) := by
  rcases p with ⟨od, cs⟩
  cases hpat : cs.comm_pattern <;>
    simp_all [_compute_and_add, actionCost, supportedPattern]

lemma compute_and_add_unsupported (acc : TrainCycleItem) (p : OperationData × CommSpec)
    (h : supportedPattern p.2.comm_pattern = false) :
    _compute_and_add acc p.1 p.2 = .error .UnsupportedCommPattern := by
  rcases p with ⟨od, cs⟩
  cases hpat : cs.comm_pattern <;>
    simp_all [_compute_and_add, supportedPattern]

lemma comm_cost_fold_ok (actions : List (OperationData × CommSpec))
    (h : ∀ p ∈ actions, supportedPattern p.2.comm_pattern = true) :
    ∀ acc : TrainCycleItem,
      actions.foldlM (fun acc p => _compute_and_add acc p.1 p.2) acc =
        .ok (TrainCycleItem.mk (acc.fwd + (actions.map actionCost).sum) acc.bwd) := by
  induction actions with
  | nil => intro acc; rfl
  | cons p rest ih =>
      intro acc
      have hp : supportedPattern p.2.comm_pattern = true := h p (by simp)
      have hrest : ∀ q ∈ rest, supportedPattern q.2.comm_pattern = true :=
        fun q hq => h q (by simp [hq])
      simp only [List.foldlM_cons, compute_and_add_supported acc p hp]
      rw [show (Except.ok (TrainCycleItem.mk (acc.fwd + actionCost p) acc.bwd) >>=
            fun b => rest.foldlM (fun acc p => _compute_and_add acc p.1 p.2) b) =
          rest.foldlM (fun acc p => _compute_and_add acc p.1 p.2)
            (TrainCycleItem.mk (acc.fwd + actionCost p) acc.bwd) from rfl]
      rw [ih hrest]
      simp [List.map_cons, List.sum_cons, Nat.add_assoc]

lemma comm_cost_fold_error (actions : List (OperationData × CommSpec))
    (h : ∃ p ∈ actions, supportedPattern p.2.comm_pattern = false) :
    ∀ acc : TrainCycleItem,
      actions.foldlM (fun acc p => _compute_and_add acc p.1 p.2) acc =
        .error SolverError.UnsupportedCommPattern := by
  induction actions with
  | nil => rcases h with ⟨p, hp, _⟩; simp at hp
  | cons p rest ih =>
      intro acc
      by_cases hp : supportedPattern p.2.comm_pattern = true
      · rcases h with ⟨q, hq, hbad⟩
        rcases List.mem_cons.mp hq with rfl | hqrest
        · rw [hp] at hbad; exact absurd hbad (by simp)
        · simp only [List.foldlM_cons, compute_and_add_supported acc p hp]
          rw [show (Except.ok (TrainCycleItem.mk (acc.fwd + actionCost p) acc.bwd) >>=
                fun b => rest.foldlM (fun acc p => _compute_and_add acc p.1 p.2) b) =
              rest.foldlM (fun acc p => _compute_and_add acc p.1 p.2)
                (TrainCycleItem.mk (acc.fwd + actionCost p) acc.bwd) from rfl]
          exact ih ⟨q, hqrest, hbad⟩ _
      · have hpf : supportedPattern p.2.comm_pattern = false := by
          cases hv : supportedPattern p.2.comm_pattern
          · rfl
          · exact absurd hv hp
        simp only [List.foldlM_cons, compute_and_add_unsupported acc p hpf]
        rfl

/-! ### Shared lemmas about the sharded-shape derivation and name lookup -/

lemma mod_eq_zero_iff_dvd_all (d p : Nat) : d % p = 0 ↔ p ∣ d := by
  constructor
  · exact Nat.dvd_of_mod_eq_zero
  · rintro ⟨k, rfl⟩
    exact Nat.mul_mod_right p k

lemma shardDims_ok (spec : ShardingSpec) (dims : List Nat) :
    ∀ i : Nat,
      (∀ j, (hj : j < dims.length) → spec.dimAxesProduct (i + j) ∣ dims.get ⟨j, hj⟩) →
      shardDims spec i dims = .ok (divideDims spec i dims) := by
  induction dims with
  | nil => intro i _; rfl
  | cons d rest ih =>
      intro i h
      have h0 : spec.dimAxesProduct i ∣ d := by simpa using h 0 (by simp)
      have hr : ∀ j, (hj : j < rest.length) →
          spec.dimAxesProduct (i + 1 + j) ∣ rest.get ⟨j, hj⟩ := by
        intro j hj
        have := h (j + 1) (by simpa using Nat.succ_lt_succ hj)
        simpa [Nat.add_assoc, Nat.add_comm 1 j] using this
      simp only [shardDims, divideDims]
      rw [if_pos ((mod_eq_zero_iff_dvd_all d _).mpr h0), ih (i + 1) hr]
      rfl

lemma shardDims_error (spec : ShardingSpec) (dims : List Nat) :
    ∀ i : Nat,
      (∃ j, ∃ hj : j < dims.length, ¬ spec.dimAxesProduct (i + j) ∣ dims.get ⟨j, hj⟩) →
      shardDims spec i dims = .error .NonDivisibleShard := by
  induction dims with
  | nil => intro i h; rcases h with ⟨j, hj, _⟩; exact absurd hj (by simp)
  | cons d rest ih =>
      intro i h
      by_cases h0 : d % spec.dimAxesProduct i = 0
      · rcases h with ⟨j, hj, hnd⟩
        cases j with
        | zero =>
            exact absurd ((mod_eq_zero_iff_dvd_all d _).mp h0) (by simpa using hnd)
        | succ j2 =>
            have hj2 : j2 < rest.length := by simpa using Nat.lt_of_succ_lt_succ hj
            have hnd2 : ¬ spec.dimAxesProduct (i + 1 + j2) ∣ rest.get ⟨j2, hj2⟩ := by
              have hix : i + 1 + j2 = i + (j2 + 1) := by
                simp [Nat.add_assoc, Nat.add_comm 1 j2]
              rw [hix]
              simpa using hnd
            simp only [shardDims]
            rw [if_pos h0, ih (i + 1) ⟨j2, hj2, hnd2⟩]
            rfl
      · simp only [shardDims]
        rw [if_neg h0]

lemma reduceMul_ok (shape : List Nat) (h : shape ≠ []) :
    reduceMul shape = .ok (listProd shape) := by
  cases shape with
  | nil => exact absurd rfl h
  | cons a t => simp [reduceMul, listProd]

lemma mapM_lookup_error {β γ : Type} (g : StrategyGenerator_V2)
    (f : String × β → OperationData → γ) (m : List (String × β))
    (h : ∃ p ∈ m, findVal g.op_data p.1 = none) :
    m.mapM (fun kv =>
        match findVal g.op_data kv.1 with
        | some od => Except.ok (f kv od)
        | none => Except.error SolverError.UnknownOperand) =
      .error SolverError.UnknownOperand := by
  induction m with
  | nil => rcases h with ⟨p, hp, _⟩; simp at hp
  | cons q rest ih =>
      rw [List.mapM_cons]
      cases hq : findVal g.op_data q.1 with
      | none => rfl
      | some od =>
          rcases h with ⟨p, hp, hnone⟩
          rcases List.mem_cons.mp hp with rfl | hprest
          · rw [hq] at hnone; exact absurd hnone (by simp)
          · show (rest.mapM (fun kv =>
                    match findVal g.op_data kv.1 with
                    | some od => Except.ok (f kv od)
                    | none => Except.error SolverError.UnknownOperand) >>= fun bs =>
                      pure (f q od :: bs)) = Except.error SolverError.UnknownOperand
            rw [ih ⟨p, hprest, hnone⟩]
            rfl

lemma mapM_lookup_ok {β γ : Type} (g : StrategyGenerator_V2)
    (f : String × β → OperationData → γ) (m : List (String × β))
    (h : ∀ p ∈ m, (findVal g.op_data p.1).isSome = true) :
    ∃ r, m.mapM (fun kv =>
        match findVal g.op_data kv.1 with
        | some od => Except.ok (f kv od)
        | none => Except.error SolverError.UnknownOperand) = .ok r := by
  induction m with
  | nil => exact ⟨[], rfl⟩
  | cons q rest ih =>
      have hq := h q (by simp)
      cases hqv : findVal g.op_data q.1 with
      | none => rw [hqv] at hq; exact absurd hq (by simp)
      | some od =>
          rcases ih (fun p hp => h p (by simp [hp])) with ⟨r, hr⟩
          refine ⟨f q od :: r, ?_⟩
          have hfq : (match findVal g.op_data q.1 with
              | some od2 => Except.ok (f q od2)
              | none => Except.error SolverError.UnknownOperand) =
                (Except.ok (f q od) : Except SolverError γ) := by
            rw [hqv]
          rw [List.mapM_cons]
          show ((match findVal g.op_data q.1 with
              | some od2 => Except.ok (f q od2)
              | none => Except.error SolverError.UnknownOperand) >>= fun b =>
                (rest.mapM (fun kv =>
                  match findVal g.op_data kv.1 with
                  | some od => Except.ok (f kv od)
                  | none => Except.error SolverError.UnknownOperand) >>= fun bs =>
                    pure (b :: bs))) = Except.ok (f q od :: r)
          rw [hfq, hr]
          rfl

/-! ### Concrete values used by witnesses -/

/-- A 4-byte element type (e.g. float32). -/
def dt4 : DType := DType.mk 4

/-- A 2-byte element type (e.g. float16). -/
def dt2 : DType := DType.mk 2

/-- Operand `x`: logical shape [8], 4-byte elements. -/
def odX : OperationData := OperationData.mk "x" [8] (TensorData.mk dt4)

/-- Operand `y`: logical shape [8], 2-byte elements. -/
def odY : OperationData := OperationData.mk "y" [8] (TensorData.mk dt2)

/-- A one-axis grid of 2 devices. -/
def mesh2 : DeviceMesh := DeviceMesh.mk [2]

/-- Layout of `x` over `mesh2`: dimension 0 sharded over axis 0, so the
per-device shape is [4]. -/
def specX : ShardingSpec := ShardingSpec.mk mesh2 [8] [(0, [0])]

/-- A supported action: REDUCE_FWD_IDENTITY_BWD over `specX` (4 elements
communicated per device). -/
def csRed : CommSpec := CommSpec.mk .REDUCE_FWD_IDENTITY_BWD specX (.single 0)

/-- A supported action: IDENTITY_FWD_ALLREDUCE_BWD over `specX`. -/
def csId : CommSpec := CommSpec.mk .IDENTITY_FWD_ALLREDUCE_BWD specX (.single 0)

/-- An action whose pattern the cost updater does not support. -/
def csBad : CommSpec := CommSpec.mk .GATHER_FWD_SPLIT_BWD specX (.single 0)

/-- A generator holding operands `x`, `y` over `mesh2`. -/
def genX : StrategyGenerator_V2 := StrategyGenerator_V2.mk [("x", odX), ("y", odY)] mesh2

/-- A base strategy for `x` without communication actions or costs. -/
def stratBase : ShardingStrategy_V2 :=
  ShardingStrategy_V2.mk "s" [(odX, specX)] none none none none

/-- `stratBase` with a single supported action of cost 4 · 4 = 16. -/
def sRed : ShardingStrategy_V2 :=
  { stratBase with communication_actions := some [(odX, csRed)] }

/-! ### Claims about update_communication_cost -/

/-- Claim C1: for a strategy whose communication-action mapping is
present and all of whose actions have one of the two supported patterns,
`update_communication_cost` prices each (operand, action) pair as the
action's communicated element count times the operand element's byte
size (`actionCost`), accumulates every such cost into the forward total,
leaves the backward total at zero, and stores the accumulated totals in
the strategy's `communication_cost`. -/
theorem update_comm_cost_totals (g : StrategyGenerator_V2) (s : ShardingStrategy_V2)
    (actions : List (OperationData × CommSpec))
    (hact : s.communication_actions = some actions)
    (hsup : ∀ p ∈ actions, supportedPattern p.2.comm_pattern = true) :
    g.update_communication_cost s =
      .ok { s with
              communication_cost := some (TrainCycleItem.mk ((actions.map actionCost).sum) 0) } := by
  simp only [StrategyGenerator_V2.update_communication_cost, hact]
  rw [comm_cost_fold_ok actions hsup (TrainCycleItem.mk 0 0)]
  simp [Except.map]

/-- Witness for C1: one REDUCE_FWD_IDENTITY_BWD action over 4 elements
of 4 bytes yields forward cost 16, backward cost 0. -/
theorem update_comm_cost_totals_witness :
    genX.update_communication_cost sRed =
      .ok { sRed with communication_cost := some (TrainCycleItem.mk 16 0) } :=
  (update_comm_cost_totals genX sRed [(odX, csRed)] rfl (by decide)).trans rfl

/-- Claim C2: for a strategy with two forward-contributing actions, the
forward communication cost of the strategy containing both equals the
sum of the forward costs of each action alone, independent of order. -/
theorem update_comm_cost_additive (g : StrategyGenerator_V2) (base : ShardingStrategy_V2)
    (p1 p2 : OperationData × CommSpec)
    (h1 : supportedPattern p1.2.comm_pattern = true)
    (h2 : supportedPattern p2.2.comm_pattern = true) :
    ∃ f1 f2 : Nat,
      g.update_communication_cost { base with communication_actions := some [p1] } =
        .ok { base with
                communication_actions := some [p1],
                communication_cost := some (TrainCycleItem.mk f1 0) } ∧
      g.update_communication_cost { base with communication_actions := some [p2] } =
        .ok { base with
                communication_actions := some [p2],
                communication_cost := some (TrainCycleItem.mk f2 0) } ∧
      g.update_communication_cost { base with communication_actions := some [p1, p2] } =
        .ok { base with
                communication_actions := some [p1, p2],
                communication_cost := some (TrainCycleItem.mk (f1 + f2) 0) } ∧
      g.update_communication_cost { base with communication_actions := some [p2, p1] } =
        .ok { base with
                communication_actions := some [p2, p1],
                communication_cost := some (TrainCycleItem.mk (f1 + f2) 0) } := by
  have H : ∀ (l : List (OperationData × CommSpec)),
      (∀ p ∈ l, supportedPattern p.2.comm_pattern = true) →
      g.update_communication_cost { base with communication_actions := some l } =
        .ok { base with
                communication_actions := some l,
                communication_cost := some (TrainCycleItem.mk ((l.map actionCost).sum) 0) } := by
    intro l hl
    rw [update_comm_cost_some_eq g _ l (by simp), comm_cost_fold_ok l hl (TrainCycleItem.mk 0 0)]
    simp [Except.map]
  refine ⟨actionCost p1, actionCost p2, ?_, ?_, ?_, ?_⟩
  · simpa using H [p1] (by simpa using h1)
  · simpa using H [p2] (by simpa using h2)
  · simpa [Nat.add_assoc] using H [p1, p2] (by simp [h1, h2])
  · simpa [Nat.add_assoc, Nat.add_comm (actionCost p2)] using
      H [p2, p1] (by simp [h1, h2])

/-- Witness for C2: the two supported actions over `x` (cost 16) and `y`
(cost 8) are priced additively and order-independently. -/
theorem update_comm_cost_additive_witness :
    ∃ f1 f2 : Nat,
      genX.update_communication_cost { stratBase with communication_actions := some [(odX, csRed)] } =
        .ok { stratBase with
                communication_actions := some [(odX, csRed)],
                communication_cost := some (TrainCycleItem.mk f1 0) } ∧
      genX.update_communication_cost { stratBase with communication_actions := some [(odY, csId)] } =
        .ok { stratBase with
                communication_actions := some [(odY, csId)],
                communication_cost := some (TrainCycleItem.mk f2 0) } ∧
      genX.update_communication_cost
          { stratBase with communication_actions := some [(odX, csRed), (odY, csId)] } =
        .ok { stratBase with
                communication_actions := some [(odX, csRed), (odY, csId)],
                communication_cost := some (TrainCycleItem.mk (f1 + f2) 0) } ∧
      genX.update_communication_cost
          { stratBase with communication_actions := some [(odY, csId), (odX, csRed)] } =
        .ok { stratBase with
                communication_actions := some [(odY, csId), (odX, csRed)],
                communication_cost := some (TrainCycleItem.mk (f1 + f2) 0) } :=
  update_comm_cost_additive genX stratBase (odX, csRed) (odY, csId) (by decide) (by decide)

/-- Claim C3: a strategy containing an action whose pattern is outside
{REDUCE_FWD_IDENTITY_BWD, IDENTITY_FWD_ALLREDUCE_BWD} makes
`update_communication_cost` fail with `UnsupportedCommPattern`; the
raise happens before the store, so no updated strategy is produced and
the caller's `communication_cost` is exactly what it was before. -/
theorem update_comm_cost_unsupported (g : StrategyGenerator_V2) (s : ShardingStrategy_V2)
    (actions : List (OperationData × CommSpec)) (p : OperationData × CommSpec)
    (hact : s.communication_actions = some actions)
    (hp : p ∈ actions) (hbad : supportedPattern p.2.comm_pattern = false) :
    g.update_communication_cost s = .error SolverError.UnsupportedCommPattern := by
  simp only [StrategyGenerator_V2.update_communication_cost, hact]
  rw [comm_cost_fold_error actions ⟨p, hp, hbad⟩ (TrainCycleItem.mk 0 0)]
  rfl

/-- Witness for C3: a GATHER_FWD_SPLIT_BWD action is rejected. -/
theorem update_comm_cost_unsupported_witness :
    genX.update_communication_cost
        { stratBase with communication_actions := some [(odX, csBad)] } =
      .error SolverError.UnsupportedCommPattern :=
  update_comm_cost_unsupported genX
    { stratBase with communication_actions := some [(odX, csBad)] }
    [(odX, csBad)] (odX, csBad) rfl (by decide) (by decide)

/-- Claim C10: a strategy whose communication-action mapping is absent
is priced successfully with the zero cost item. -/
theorem update_comm_cost_no_actions (g : StrategyGenerator_V2) (s : ShardingStrategy_V2)
    (h : s.communication_actions = none) :
    g.update_communication_cost s =
      .ok { s with communication_cost := some (TrainCycleItem.mk 0 0) } := by
  simp only [StrategyGenerator_V2.update_communication_cost, h]
  rfl

/-- Witness for C10: the base strategy has no action mapping and gets
cost (0, 0). -/
theorem update_comm_cost_no_actions_witness :
    genX.update_communication_cost stratBase =
      .ok { stratBase with communication_cost := some (TrainCycleItem.mk 0 0) } :=
  update_comm_cost_no_actions genX stratBase rfl

/-- Claim C8: `update_communication_cost` modifies only the
`communication_cost` field — name, layout mapping, action mapping,
compute cost and memory cost are unchanged. -/
theorem update_comm_cost_frame (g : StrategyGenerator_V2) (s s2 : ShardingStrategy_V2)
    (h : g.update_communication_cost s = .ok s2) :
    s2.name = s.name ∧ s2.sharding_specs = s.sharding_specs ∧
      s2.communication_actions = s.communication_actions ∧
      s2.compute_cost = s.compute_cost ∧ s2.memory_cost = s.memory_cost := by
  cases hact : s.communication_actions with
  | none =>
      rw [update_comm_cost_none_eq g s hact] at h
      have hs2 := (Except.ok.inj h).symm
      subst hs2
      simp [hact]
  | some l =>
      rw [update_comm_cost_some_eq g s l hact] at h
      cases hfold : l.foldlM (fun acc p => _compute_and_add acc p.1 p.2) (TrainCycleItem.mk 0 0) with
      | error e => rw [hfold] at h; simp [Except.map] at h
      | ok c =>
          rw [hfold] at h
          simp only [Except.map] at h
          have hs2 := (Except.ok.inj h).symm
          subst hs2
          simp [hact]

/-- Witness for C8: pricing the base strategy leaves every field except
`communication_cost` unchanged. -/
theorem update_comm_cost_frame_witness :
    ({ stratBase with communication_cost := some (TrainCycleItem.mk 0 0) } : ShardingStrategy_V2).name = stratBase.name ∧
    ({ stratBase with communication_cost := some (TrainCycleItem.mk 0 0) } : ShardingStrategy_V2).sharding_specs = stratBase.sharding_specs ∧
    ({ stratBase with communication_cost := some (TrainCycleItem.mk 0 0) } : ShardingStrategy_V2).communication_actions = stratBase.communication_actions ∧
    ({ stratBase with communication_cost := some (TrainCycleItem.mk 0 0) } : ShardingStrategy_V2).compute_cost = stratBase.compute_cost ∧
    ({ stratBase with communication_cost := some (TrainCycleItem.mk 0 0) } : ShardingStrategy_V2).memory_cost = stratBase.memory_cost :=
  update_comm_cost_frame genX stratBase
    { stratBase with communication_cost := some (TrainCycleItem.mk 0 0) } rfl

/-- Claim C7 counterexample: the claim asserts that a second call to
`update_communication_cost` without a reset doubles the forward total.
On the code it does not: the accumulator is a fresh zero item each call
and the final store overwrites `communication_cost`, so a second call
reproduces the single-call cost (16), not twice it (32). -/
theorem repeated_update_counterexample :
    genX.update_communication_cost sRed =
      .ok { sRed with communication_cost := some (TrainCycleItem.mk 16 0) } ∧
    (genX.update_communication_cost sRed).bind (genX.update_communication_cost) =
      .ok { sRed with communication_cost := some (TrainCycleItem.mk 16 0) } ∧
    ¬ (genX.update_communication_cost sRed).bind (genX.update_communication_cost) =
        .ok { sRed with communication_cost := some (TrainCycleItem.mk 32 0) } :=
  ⟨rfl, rfl, fun h => absurd (Except.ok.inj (rfl.symm.trans h)) (by decide)⟩

/-- Claim C7 (amended): repeated calls do not double-count — the cost is
recomputed from a fresh zero accumulator and overwritten, so a second
call on the result of a successful call returns the same strategy
unchanged, with no reset required. -/
theorem update_comm_cost_idempotent (g : StrategyGenerator_V2) (s s2 : ShardingStrategy_V2)
    (h : g.update_communication_cost s = .ok s2) :
    g.update_communication_cost s2 = .ok s2 := by
  cases hact : s.communication_actions with
  | none =>
      rw [update_comm_cost_none_eq g s hact] at h
      have hs2 := (Except.ok.inj h).symm
      subst hs2
      rw [update_comm_cost_none_eq g _ (by simp [hact])]
  | some l =>
      rw [update_comm_cost_some_eq g s l hact] at h
      cases hfold : l.foldlM (fun acc p => _compute_and_add acc p.1 p.2) (TrainCycleItem.mk 0 0) with
      | error e => rw [hfold] at h; simp [Except.map] at h
      | ok c =>
          rw [hfold] at h
          simp only [Except.map] at h
          have hs2 := (Except.ok.inj h).symm
          subst hs2
          rw [update_comm_cost_some_eq g _ l (by simp [hact]), hfold]
          rfl

/-- Witness for the amended C7: re-pricing the already-priced strategy
returns it unchanged. -/
theorem update_comm_cost_idempotent_witness :
    genX.update_communication_cost
        { sRed with communication_cost := some (TrainCycleItem.mk 16 0) } =
      .ok { sRed with communication_cost := some (TrainCycleItem.mk 16 0) } :=
  update_comm_cost_idempotent genX sRed
    { sRed with communication_cost := some (TrainCycleItem.mk 16 0) } rfl

/-! ### Further concrete values for the remaining witnesses -/

/-- Operand `m`: logical shape [8, 16], 4-byte elements. -/
def odM : OperationData := OperationData.mk "m" [8, 16] (TensorData.mk dt4)

/-- A one-axis grid of 4 devices. -/
def mesh4 : DeviceMesh := DeviceMesh.mk [4]

/-- Layout of `m` over `mesh4`: dimension 1 sharded over axis 0, so the
per-device shape is [8, 4]. -/
def specM : ShardingSpec := ShardingSpec.mk mesh4 [8, 16] [(1, [0])]

/-- Generator holding operand `m` over `mesh4`. -/
def genM : StrategyGenerator_V2 := StrategyGenerator_V2.mk [("m", odM)] mesh4

/-- Strategy assigning `specM` to `m`. -/
def stratM : ShardingStrategy_V2 :=
  ShardingStrategy_V2.mk "sm" [(odM, specM)] none none none none

/-- A two-axis grid with axis sizes 3 and 5. -/
def mesh35 : DeviceMesh := DeviceMesh.mk [3, 5]

/-- Operand `t`: logical shape [10]. -/
def odT : OperationData := OperationData.mk "t" [10] (TensorData.mk dt4)

/-- Layout sharding the dimension of size 10 over the axis of size 3
(non-divisible). -/
def specT3 : ShardingSpec := ShardingSpec.mk mesh35 [10] [(0, [0])]

/-- Layout sharding the dimension of size 10 over the axis of size 5. -/
def specT5 : ShardingSpec := ShardingSpec.mk mesh35 [10] [(0, [1])]

/-- Generator holding operand `t` over `mesh35`. -/
def genT : StrategyGenerator_V2 := StrategyGenerator_V2.mk [("t", odT)] mesh35

/-- Strategy assigning the non-divisible layout `specT3` to `t`. -/
def stratT3 : ShardingStrategy_V2 :=
  ShardingStrategy_V2.mk "t3" [(odT, specT3)] none none none none

/-- Strategy assigning the divisible layout `specT5` to `t`. -/
def stratT5 : ShardingStrategy_V2 :=
  ShardingStrategy_V2.mk "t5" [(odT, specT5)] none none none none

/-- A grid with axis sizes (4, 8), as in the flatten scenario. -/
def mesh48 : DeviceMesh := DeviceMesh.mk [4, 8]

/-- An unpartitioned layout over `mesh48`. -/
def spec48 : ShardingSpec := ShardingSpec.mk mesh48 [16] []

/-! ### Claims about the factories and helpers -/

/-- Claim C4: `get_communication_spec` with an ordered pair of two grid
axes replaces the sharding spec's device grid by its flattened form — a
single axis whose size is the product of all original axis sizes — and
records axis 0; with a single axis the grid is untouched and the given
axis is recorded as-is. -/
theorem get_comm_spec_flatten (g : StrategyGenerator_V2) (sp : ShardingSpec)
    (pat : CollectiveCommPattern) (i j a : Nat) :
    g.get_communication_spec sp pat (.multi [i, j]) =
      CommSpec.mk pat
        (ShardingSpec.mk (DeviceMesh.mk [listProd sp.device_mesh.mesh_shape])
          sp.entire_shape sp.dim_partition_dict)
        (.single 0) ∧
    g.get_communication_spec sp pat (.single a) = CommSpec.mk pat sp (.single a) := by
  constructor
  · rfl
  · rfl

/-- Witness for C4: flattening a (4, 8) grid yields one axis of size 32
and the recorded axis 0. -/
theorem get_comm_spec_flatten_witness :
    genX.get_communication_spec spec48 .REDUCE_FWD_IDENTITY_BWD (.multi [0, 1]) =
      CommSpec.mk .REDUCE_FWD_IDENTITY_BWD
        (ShardingSpec.mk (DeviceMesh.mk [32]) [16] []) (.single 0) :=
  ((get_comm_spec_flatten genX spec48 .REDUCE_FWD_IDENTITY_BWD 0 1 0).1).trans rfl

/-- Claim C5: for an operand present in the generator's mapping whose
sharding spec yields a per-device shape, `_compute_size_in_bytes`
returns the product of the per-device shape dimensions times the element
byte size. -/
theorem compute_size_in_bytes_correct (g : StrategyGenerator_V2)
    (s : ShardingStrategy_V2) (key : String) (od : OperationData)
    (spec : ShardingSpec) (shape : List Nat)
    (hk : findVal g.op_data key = some od)
    (hs : findVal s.sharding_specs od = some spec)
    (hshape : spec.get_sharded_shape_per_device = .ok shape)
    (hne : shape ≠ []) :
    g._compute_size_in_bytes s key =
      .ok (listProd shape * od.data.dtype.element_size) := by
  simp only [StrategyGenerator_V2._compute_size_in_bytes, hk, hs, hshape,
    reduceMul_ok shape hne, Except.map]

/-- Witness for C5: per-device shape [8, 4] with 4-byte elements gives
8 · 4 · 4 = 128 bytes. -/
theorem compute_size_in_bytes_correct_witness :
    genM._compute_size_in_bytes stratM "m" = .ok 128 :=
  (compute_size_in_bytes_correct genM stratM "m" odM specM [8, 4]
    rfl rfl rfl (by decide)).trans rfl

/-- Claim C6: a layout-construction (`to_sharding_spec_mapping`) or
strategy-assembly rekeying (`replace_op_name_with_op_data`) input
mapping containing a name absent from the operand-descriptor mapping
fails with `UnknownOperand`; a mapping whose names are all present
succeeds. -/
theorem unknown_operand_rejection (g : StrategyGenerator_V2) :
    (∀ (m : List (String × List (Nat × List Nat))),
        ((∃ p ∈ m, findVal g.op_data p.1 = none) →
          g.to_sharding_spec_mapping m = .error SolverError.UnknownOperand) ∧
        ((∀ p ∈ m, (findVal g.op_data p.1).isSome = true) →
          exceptOk (g.to_sharding_spec_mapping m) = true)) ∧
    (∀ (β : Type) (m : List (String × β)),
        ((∃ p ∈ m, findVal g.op_data p.1 = none) →
          g.replace_op_name_with_op_data m = .error SolverError.UnknownOperand) ∧
        ((∀ p ∈ m, (findVal g.op_data p.1).isSome = true) →
          exceptOk (g.replace_op_name_with_op_data m) = true)) := by
  refine ⟨fun m => ⟨fun h => ?_, fun h => ?_⟩, fun β m => ⟨fun h => ?_, fun h => ?_⟩⟩
  · exact mapM_lookup_error g
      (fun kv od => (kv.1, ShardingSpec.mk g.device_mesh od.logical_shape kv.2)) m h
  · rcases mapM_lookup_ok g
        (fun kv od => (kv.1, ShardingSpec.mk g.device_mesh od.logical_shape kv.2)) m h with ⟨r, hr⟩
    rw [show g.to_sharding_spec_mapping m = .ok r from hr]
    rfl
  · exact mapM_lookup_error g (fun kv od => (od, kv.2)) m h
  · rcases mapM_lookup_ok g (fun kv od => (od, kv.2)) m h with ⟨r, hr⟩
    rw [show g.replace_op_name_with_op_data m = .ok r from hr]
    rfl

/-- Witness for C6: the name "missing" is rejected with
`UnknownOperand` by both operations, while mappings naming only "x"
succeed. -/
theorem unknown_operand_rejection_witness :
    genX.to_sharding_spec_mapping [("missing", [])] = .error SolverError.UnknownOperand ∧
    exceptOk (genX.to_sharding_spec_mapping [("x", [(0, [0])])]) = true ∧
    genX.replace_op_name_with_op_data [("missing", csRed)] = .error SolverError.UnknownOperand ∧
    exceptOk (genX.replace_op_name_with_op_data [("x", csRed)]) = true := by
  have h := unknown_operand_rejection genX
  exact ⟨(h.1 [("missing", [])]).1 ⟨("missing", []), by simp, by decide⟩,
         (h.1 [("x", [(0, [0])])]).2 (by decide),
         (h.2 CommSpec [("missing", csRed)]).1 ⟨("missing", csRed), by simp, by decide⟩,
         (h.2 CommSpec [("x", csRed)]).2 (by decide)⟩

/-- Claim C9: the per-device shape derivation divides each partitioned
dimension by the product of its assigned axis sizes when every division
is exact, and fails with `NonDivisibleShard` when some division is not
exact; the failure surfaces through `_compute_size_in_bytes`, never
silently rounded. -/
theorem sharded_shape_division (g : StrategyGenerator_V2) (s : ShardingStrategy_V2)
    (key : String) (od : OperationData) (spec : ShardingSpec)
    (hk : findVal g.op_data key = some od)
    (hs : findVal s.sharding_specs od = some spec) :
    ((∀ j, (hj : j < spec.entire_shape.length) →
        spec.dimAxesProduct j ∣ spec.entire_shape.get ⟨j, hj⟩) →
      spec.get_sharded_shape_per_device = .ok (divideDims spec 0 spec.entire_shape)) ∧
    ((∃ j, ∃ hj : j < spec.entire_shape.length,
        ¬ spec.dimAxesProduct j ∣ spec.entire_shape.get ⟨j, hj⟩) →
      spec.get_sharded_shape_per_device = .error SolverError.NonDivisibleShard ∧
      g._compute_size_in_bytes s key = .error SolverError.NonDivisibleShard) := by
  constructor
  · intro h
    exact shardDims_ok spec spec.entire_shape 0 (fun j hj => by simpa using h j hj)
  · intro h
    have herr : spec.get_sharded_shape_per_device = .error SolverError.NonDivisibleShard := by
      rcases h with ⟨j, hj, hnd⟩
      exact shardDims_error spec spec.entire_shape 0 ⟨j, hj, by simpa using hnd⟩
    refine ⟨herr, ?_⟩
    simp only [StrategyGenerator_V2._compute_size_in_bytes, hk, hs, herr]

/-- Witness for C9: a dimension of size 10 over an axis of size 3 fails
with `NonDivisibleShard` (also through the byte-size helper); over an
axis of size 5 it succeeds with per-device size 2. -/
theorem sharded_shape_division_witness :
    specT3.get_sharded_shape_per_device = .error SolverError.NonDivisibleShard ∧
    genT._compute_size_in_bytes stratT3 "t" = .error SolverError.NonDivisibleShard ∧
    specT5.get_sharded_shape_per_device = .ok [2] := by
  have h3 := (sharded_shape_division genT stratT3 "t" odT specT3 rfl rfl).2
    ⟨0, by decide, by decide⟩
  have h5 := (sharded_shape_division genT stratT5 "t" odT specT5 rfl rfl).1 (by decide)
  exact ⟨h3.1, h3.2, h5.trans rfl⟩

end AutoParallelSolver
